import Mathlib

/-!
Verification of the activegraph repository: a shallow embedding of the
activerecord relation/association engine (modelled from the spec, since only
its test suite is present in the sources), of the GraphQL controller in
`controller.go`, and of the GraphQL mapper.
-/

namespace ActiveRecord

/-- Modelled from the spec: attribute values carry a logical cast type from a
closed set (integer, string, ...), with an explicit null. -/
inductive Value where
  | int (i : Int)
  | str (s : String)
  | null
deriving DecidableEq, Repr

/-- A materialized row: ordered attribute-name to value mapping. -/
abbrev Row := List (String × Value)

/-- Look up an attribute value in a row by name. -/
def getAttr (row : Row) (a : String) : Option Value :=
  (row.find? (fun p => p.1 = a)).map (fun p => p.2)

/-- Modelled from the spec: a predicate is "either a raw fragment + positional
arguments, or a structured equality {attribute, value}".  Raw fragments are
restricted to the single greater-than comparison form used by the spec's
examples ("year > ?" with one positional integer argument). -/
inductive Cond where
  | eq (attr : String) (v : Value)
  | gtFrag (attr : String) (arg : Int)
deriving DecidableEq, Repr

/-- Evaluate one predicate against a row. -/
def evalCond (c : Cond) (row : Row) : Bool :=
  match c with
  | .eq attr v => getAttr row attr = some v
  | .gtFrag attr arg =>
    match getAttr row attr with
    | some (.int i) => arg < i
    | _ => false

/-- Modelled from the spec: association kind, belongs-to or has-many. -/
inductive AssocKind where
  | belongsTo
  | hasMany
deriving DecidableEq, Repr

/-- Modelled from the spec: an association edge carries its kind, the owning
model name, the target model name (resolved lazily by name) and an optional
explicit foreign-key override. -/
structure Association where
  kind : AssocKind
  owner : String
  target : String
  fkOverride : Option String
deriving DecidableEq, Repr

/-- Lower-casing of a model name (strings.ToLower on the name). -/
def lowerName (s : String) : String := ⟨s.data.map Char.toLower⟩

/-- Modelled from the spec: the foreign-key attribute name is the explicit
override when one was supplied, otherwise the lower-cased singular name of the
model that owns the collection ("<owning-model-singular>_id"): the declaring
model for has-many, the target model for belongs-to. -/
def Association.foreignKey (a : Association) : String :=
  match a.fkOverride with
  | some fk => fk
  | none =>
    match a.kind with
    | .hasMany => lowerName a.owner ++ "_id"
    | .belongsTo => lowerName a.target ++ "_id"

/-- Modelled from the spec: a model definition with a name, ordered attribute
list, primary-key attribute name and outgoing associations. -/
structure ModelDef where
  name : String
  attrs : List String
  pk : String
  associations : List Association
deriving DecidableEq, Repr

/-- Modelled from the spec: a Relation is an immutable value holding the target
model, the ordered predicate list, the projection list (empty means all), the
grouping list, the join list and the ordering list. -/
structure Relation where
  model : String
  conds : List Cond
  projection : List String
  groups : List String
  joins : List String
  order : List String
deriving DecidableEq, Repr

/-- `Where` returns a new Relation: the receiver's predicate list plus the new
predicate appended; no other field changes. -/
def Relation.Where (R : Relation) (c : Cond) : Relation :=
  { R with conds := R.conds ++ [c] }

/-- `Group` returns a new Relation with the grouping attribute appended. -/
def Relation.Group (R : Relation) (g : String) : Relation :=
  { R with groups := R.groups ++ [g] }

/-- `Select` returns a new Relation with the projected attribute appended. -/
def Relation.Select (R : Relation) (s : String) : Relation :=
  { R with projection := R.projection ++ [s] }

/-- `Joins` returns a new Relation with the association name appended to the
join list. -/
def Relation.Joins (R : Relation) (j : String) : Relation :=
  { R with joins := R.joins ++ [j] }

/-- `Order` returns a new Relation with the ordering attribute appended. -/
def Relation.Order (R : Relation) (o : String) : Relation :=
  { R with order := R.order ++ [o] }

/-- `Model.All()` builds the unrestricted Relation over a model. -/
def ModelDef.All (m : ModelDef) : Relation :=
  { model := m.name, conds := [], projection := [], groups := [], joins := [],
    order := [] }

/-- The database visible to the engine: rows keyed by model name (the table
for a model, as returned by the Storage Adapter). -/
abbrev DB := List (String × List Row)

/-- Rows of the table backing a model (empty when the table is absent). -/
def DB.table (db : DB) (model : String) : List Row :=
  ((db.find? (fun p => p.1 = model)).map (fun p => p.2)).getD []

/-- Replace the table backing a model. -/
def DB.setTable (db : DB) (model : String) (rows : List Row) : DB :=
  match db with
  | [] => [(model, rows)]
  | (n, t) :: rest =>
    if n = model then (n, rows) :: rest else (n, t) :: DB.setTable rest model rows

/-- A row matches a Relation when every predicate of the Relation holds. -/
def matchRow (R : Relation) (row : Row) : Bool :=
  R.conds.all (fun c => evalCond c row)

/-- The raw rows a Relation denotes over a database: the model's table
filtered by the conjunction of the predicates. -/
def rowsOf (R : Relation) (db : DB) : List Row :=
  (db.table R.model).filter (matchRow R)

/-- Apply the projection list to a row (empty projection keeps every
attribute). -/
def project (R : Relation) (row : Row) : Row :=
  if R.projection = [] then row
  else row.filter (fun p => R.projection.contains p.1)

/-- Modelled from the spec: Record outcome state, ok or failed with a
structured reason. -/
inductive Outcome where
  | ok
  | failed (reason : String)
deriving DecidableEq, Repr

/-- Modelled from the spec: a Record holds its model name, attribute values, a
persisted flag and an inspectable outcome state. -/
structure Rec where
  model : String
  attrs : Row
  persisted : Bool
  outcome : Outcome
deriving DecidableEq, Repr

/-- Materializing a query row hydrates a persisted Record. -/
def hydrate (R : Relation) (row : Row) : Rec :=
  { model := R.model, attrs := project R row, persisted := true, outcome := .ok }

/-- Modelled from the spec: the compilation errors reported before any adapter
call; grouping an attribute that is not among the projected attributes is one. -/
inductive CompileError where
  | groupingUnselected (attr : String)
deriving DecidableEq, Repr

/-- Modelled from the spec: `Group` requires every grouped attribute to be a
projected attribute; the check runs at compilation time, before any I/O. -/
def compileCheck (R : Relation) : Except CompileError Unit :=
  match R.groups.find? (fun g => !(R.projection.contains g)) with
  | some g => .error (.groupingUnselected g)
  | none => .ok ()

/-- `ToA` materializes a Relation: compilation first (a compilation failure is
returned before the database is consulted), then the filtered, projected rows
hydrated into persisted Records. -/
def Relation.ToA (R : Relation) (db : DB) : Except CompileError (List Rec) :=
  match compileCheck R with
  | .error e => .error e
  | .ok _ => .ok ((rowsOf R db).map (hydrate R))

/-- `Model.New(values)` builds an unsaved Record with the given values. -/
def ModelDef.New (m : ModelDef) (values : Row) : Rec :=
  { model := m.name, attrs := values, persisted := false, outcome := .ok }

/-- Modelled from the spec: `Insert` compiles a column/value list from the
attributes present on the Record; a Record without a primary-key value gets
the adapter-assigned one (the next row number of its table). -/
def insertRow (m : ModelDef) (r : Rec) (db : DB) : Row :=
  match getAttr r.attrs m.pk with
  | some _ => r.attrs
  | none => (m.pk, .int ((db.table m.name).length + 1)) :: r.attrs

/-- `Insert` against the fallible adapter `exec`: on an adapter error the
Record is returned (not thrown) carrying the failure reason in its outcome
and the database is untouched; on success the persisted flag flips, the
adapter-assigned primary key is stored on the Record and the row joins the
table. -/
def InsertWith (m : ModelDef) (r : Rec) (exec : Row → Except String Unit)
    (db : DB) : Rec × DB :=
  match exec (insertRow m r db) with
  | .error e => ({ r with outcome := .failed e }, db)
  | .ok _ =>
    ({ r with attrs := insertRow m r db, persisted := true, outcome := .ok },
     db.setTable m.name (db.table m.name ++ [insertRow m r db]))

/-- `Insert` against an adapter that accepts the statement. -/
def Insert (m : ModelDef) (r : Rec) (db : DB) : Rec × DB :=
  InsertWith m r (fun _ => .ok ()) db

/-- Modelled from the spec: `Record.Collection(name)` (has-many) resolves the
association by name and builds a Relation on the target model filtered by
`foreignKey = ownerPrimaryKeyValue`, returned without materializing. -/
def Collection (m : ModelDef) (r : Rec) (assocName : String) : Option Relation :=
  match m.associations.find? (fun a => a.target = assocName) with
  | none => none
  | some a =>
    some { model := a.target,
           conds := [.eq a.foreignKey ((getAttr r.attrs m.pk).getD .null)],
           projection := [], groups := [], joins := [], order := [] }

/-- The only sanctioned conversion of a failed outcome into a hard stop. -/
inductive ExpectResult where
  | panicked (msg : String)
  | ok (r : Rec)
deriving DecidableEq, Repr

/-- Modelled from the spec: `Expect(msg)` inspects the Record's outcome; an ok
outcome passes the Record through, a failed outcome becomes a hard stop whose
message combines the caller-supplied diagnostic with the underlying reason. -/
def Expect (r : Rec) (msg : String) : ExpectResult :=
  match r.outcome with
  | .ok => .ok r
  | .failed reason => .panicked (msg ++ ": " ++ reason)

/-- The `author` model of the repository's test: a string attribute `name`,
the default primary key `id` and a has-many association to `book`. -/
def authorModel : ModelDef :=
  { name := "author", attrs := ["id", "name"], pk := "id",
    associations := [⟨.hasMany, "author", "book", none⟩] }

/-- The `book` model of the repository's test: primary key `uid`, integer
`uid`/`year`, string `title`, a belongs-to to `author` with the explicit
foreign key `author_id` and a belongs-to to `publisher`. -/
def bookModel : ModelDef :=
  { name := "book", attrs := ["uid", "title", "year"], pk := "uid",
    associations := [⟨.belongsTo, "book", "author", some "author_id"⟩,
                     ⟨.belongsTo, "book", "publisher", none⟩] }

/-- The first author of the test after its insert: primary key 1. -/
def author1Rec : Rec :=
  { model := "author",
    attrs := [("id", .int 1), ("name", .str "Herman Melville")],
    persisted := true, outcome := .ok }

/-- Book row of the test: Bill Budd, 1846, author 1. -/
def billBuddRow : Row :=
  [("uid", .int 1), ("title", .str "Bill Budd"), ("year", .int 1846),
   ("author_id", .int 1)]

/-- Book row of the test: Moby Dick, 1851, author 1. -/
def mobyDickRow : Row :=
  [("uid", .int 2), ("title", .str "Moby Dick"), ("year", .int 1851),
   ("author_id", .int 1)]

/-- Book row of the test: Omoo, 1847, author 1. -/
def omooRow : Row :=
  [("uid", .int 3), ("title", .str "Omoo"), ("year", .int 1847),
   ("author_id", .int 1)]

/-- Book row of the test: Sapiens, 2015, author 2. -/
def sapiensRow : Row :=
  [("uid", .int 4), ("title", .str "Sapiens"), ("year", .int 2015),
   ("author_id", .int 2)]

/-- The books table after the four inserts of the test. -/
def booksTable : List Row := [billBuddRow, mobyDickRow, omooRow, sapiensRow]

/-- The database of the test scenario. -/
def testDB : DB := [("book", booksTable)]

/-- The Relation `author.Collection("book")` must denote: the `book` model
scoped by `author_id = 1`, nothing materialized. -/
def author1BooksRel : Relation :=
  { model := "book", conds := [.eq "author_id" (.int 1)], projection := [],
    groups := [], joins := [], order := [] }

/-- A model for the round-trip property of the spec: attributes `id`, `name`,
`year`, default primary key. -/
def novel : ModelDef :=
  { name := "novel", attrs := ["id", "name", "year"], pk := "id",
    associations := [] }

/-- The values of the round-trip property: {name: "Moby Dick", year: 1851}. -/
def mobyValues : Row := [("name", .str "Moby Dick"), ("year", .int 1851)]

end ActiveRecord



namespace Controller

/-- Outcome of a Go function that may panic instead of returning. -/
inductive GoResult (α : Type) where
  | panicked (msg : String)
  | ok (a : α)
deriving DecidableEq, Repr

/-- URL query values, as a list of key/value pairs. -/
abbrev Values := List (String × String)

/-- `url.Values.Get`: the first value for a key, or "" when absent. -/
def Values.get (vs : Values) (k : String) : String :=
  (((vs.find? (fun p => p.1 = k)).map (fun p => p.2))).getD ""

/-- The GraphQL request assembled by the controller: query text, optional
variables and operation name (the schema/document fields are set later by
`ParseRequest` and are irrelevant to parsing). -/
structure GQLRequest where
  query : String
  vars : Option (List (String × String))
  operationName : String
deriving DecidableEq, Repr

/-- Embedding of `parseURL` from `controller.go`: empty `query` parameter is
an error; a non-empty `variables` parameter must JSON-decode (decoding is the
external `json.Unmarshal`, abstracted as the `parseVars` argument); both error
paths return a nil Request together with the error. -/
def parseURL (parseVars : String → Except String (List (String × String)))
    (values : Values) : Except String GQLRequest :=
  let query := Values.get values "query"
  if query = "" then
    .error "request is missing mandatory 'query' URL parameter"
  else
    let varsRaw := Values.get values "variables"
    if varsRaw = "" then
      .ok { query := query, vars := none,
            operationName := Values.get values "operationName" }
    else
      match parseVars varsRaw with
      | .error e => .error e
      | .ok vars =>
        .ok { query := query, vars := some vars,
              operationName := Values.get values "operationName" }

/-- HTTP method of the incoming request. -/
inductive Method where
  | get
  | post
  | other
deriving DecidableEq, Repr

/-- Embedding of `ParseRequest` from `controller.go`.  The GET arm runs
`parseURL` on the URL query; the POST arm is `parsePost`, whose result is
passed in (`postResult`), with a nil Request on each of its failure paths;
any other verb returns an error immediately.  After the method switch the Go
code reads `gr.Query` without checking the parse error first, so a failed
parse (nil `gr`) is a nil-pointer dereference, i.e. a panic.  `parseDoc`
abstracts the external GraphQL document parser. -/
def ParseRequest (parseVars : String → Except String (List (String × String)))
    (parseDoc : String → Except String Unit)
    (method : Method) (urlQuery : Values)
    (postResult : Except String GQLRequest) :
    GoResult (Except String GQLRequest) :=
  match method with
  | .other => .ok (.error "POST or GET verb is expected")
  | .get =>
    match parseURL parseVars urlQuery with
    | .error _ =>
      .panicked "runtime error: invalid memory address or nil pointer dereference"
    | .ok gr =>
      match parseDoc gr.query with
      | .error e => .ok (.error e)
      | .ok _ => .ok (.ok gr)
  | .post =>
    match postResult with
    | .error _ =>
      .panicked "runtime error: invalid memory address or nil pointer dereference"
    | .ok gr =>
      match parseDoc gr.query with
      | .error e => .ok (.error e)
      | .ok _ => .ok (.ok gr)

/-- The result value a GraphQL handler writes (the payload content is opaque
to the controller). -/
abbrev GResult := String

/-- Embedding of the controller's `responseWriter`: holds the written result,
if any. -/
structure RW where
  result : Option GResult
deriving DecidableEq, Repr

/-- `responseWriter.IsWritten`: whether a result has been written. -/
def RW.IsWritten (rw : RW) : Bool := rw.result.isSome

/-- `responseWriter.Write`: stores (and on a second call replaces) the
result. -/
def RW.write (rw : RW) (res : GResult) : RW := { rw with result := some res }

/-- The request as seen by callbacks: only its operation kind matters here. -/
structure Req where
  operation : String
deriving DecidableEq, Repr

/-- A callback body: it may write to the response writer. -/
abbrev CB := RW → Req → RW

/-- Embedding of the `callback` struct: an operation filter plus the callback
body. -/
structure CallbackEntry where
  op : String
  cb : CB

/-- `callback.Serve`: runs the body only when the request's operation matches. -/
def CallbackEntry.Serve (c : CallbackEntry) (rw : RW) (r : Req) : RW :=
  if r.operation = c.op then c.cb rw r else rw

/-- A handler body (`Handler.Serve`), e.g. `DefaultHandler`. -/
abbrev HandlerFn := RW → Req → RW

/-- The before-callback loop of `callbackHandler.Serve`: before each
before-callback the writer is checked and an already-written response returns
immediately (skipping the wrapped handler and the after-callbacks); when the
list is exhausted the wrapped handler runs, followed by every after-callback. -/
def serveLoop (handler : HandlerFn) (after : List CallbackEntry) (r : Req) :
    List CallbackEntry → RW → RW
  | [], rw =>
    after.foldl (fun rw c => c.Serve rw r) (handler rw r)
  | c :: rest, rw =>
    if rw.IsWritten then rw
    else serveLoop handler after r rest (c.Serve rw r)

/-- Embedding of `callbackHandler.Serve` from `controller.go`. -/
def callbackHandlerServe (before : List CallbackEntry) (handler : HandlerFn)
    (after : List CallbackEntry) (rw : RW) (r : Req) : RW :=
  serveLoop handler after r before rw

/-- Embedding of `DefaultHandler`: executes the query and unconditionally
writes the result (`executed` stands for the execution result). -/
def DefaultHandler (rw : RW) (_r : Req) : RW := RW.write rw "executed"

/-- The before-callback of the `AppendBeforeOp` documentation example: an
authorization check on mutations that writes an "unauthorized" result to
override query execution. -/
def authCallback : CallbackEntry :=
  { op := "mutation", cb := fun rw _ => rw.write "unauthorized" }

end Controller

namespace Mapper

/-- Embedding of `ErrConstraintNotFound` from the GraphQL mapper. -/
structure ErrConstraintNotFound where
  operation : String
  name : String
  constraint : String
deriving DecidableEq, Repr

/-- `ErrConstraintNotFound.Error`: "%s constraint for %s '%s' not found"
formatted with the constraint, the operation and the name. -/
def ErrConstraintNotFound.errorString (e : ErrConstraintNotFound) : String :=
  e.constraint ++ " constraint for " ++ e.operation ++ " '" ++ e.name ++
    "' not found"

/-- An action's request or response constraint payload (the attribute list is
opaque to `Match`). -/
structure ConstraintPayload where
  attributes : List String
deriving DecidableEq, Repr

/-- Embedding of `actioncontroller.Constraints`: the `Request`/`Response`
pointer fields, nil modelled as `none`. -/
structure Constraints where
  request : Option ConstraintPayload
  response : Option ConstraintPayload
deriving DecidableEq, Repr

/-- A registered matching: operation, path, action and its constraints. -/
structure Matching (Action : Type) where
  operation : String
  name : String
  action : Action
  constraints : Constraints

/-- The mapper state `Match` appends to (resources are irrelevant to it). -/
structure MapperState (Action : Type) where
  matchings : List (Matching Action)

/-- Outcome of `Mapper.Match`: a panic carrying the structured error, or the
updated mapper. -/
inductive MatchResult (Action : Type) where
  | panicked (e : ErrConstraintNotFound)
  | ok (m : MapperState Action)

/-- Embedding of `Mapper.Match`: the last element of the variadic constraints
list (the zero value, both fields nil, when the list is empty) must carry both
a request and a response constraint; a nil field panics with
`ErrConstraintNotFound`, otherwise the matching is appended. -/
def Match {Action : Type} (m : MapperState Action) (via path : String)
    (action : Action) (constraints : List Constraints) : MatchResult Action :=
  let constraint : Constraints :=
    if constraints.length > 0 then constraints.getLastD ⟨none, none⟩
    else ⟨none, none⟩
  if constraint.request = none then
    .panicked { operation := via, name := path, constraint := "request" }
  else if constraint.response = none then
    .panicked { operation := via, name := path, constraint := "response" }
  else
    .ok ⟨m.matchings ++ [⟨via, path, action, constraint⟩]⟩

end Mapper

namespace ActiveRecord

theorem matchRow_Where (R : Relation) (c : Cond) (row : Row) :
    matchRow (R.Where c) row = (matchRow R row && evalCond c row) := by
  simp [matchRow, Relation.Where, List.all_append]

theorem rowsOf_Where (R : Relation) (c : Cond) (db : DB) :
    rowsOf (R.Where c) db = (rowsOf R db).filter (evalCond c) := by
  show (db.table R.model).filter (matchRow (R.Where c))
      = ((db.table R.model).filter (matchRow R)).filter (evalCond c)
  rw [List.filter_filter]
  refine List.filter_congr ?_
  intro row _
  rw [matchRow_Where, Bool.and_comm]

theorem ToA_congr (R1 R2 : Relation) (db : DB)
    (hm : R1.model = R2.model) (hp : R1.projection = R2.projection)
    (hg : R1.groups = R2.groups) (hr : rowsOf R1 db = rowsOf R2 db) :
    R1.ToA db = R2.ToA db := by
  have hh : hydrate R1 = hydrate R2 := by
    funext row
    simp only [hydrate, project, hm, hp]
  simp only [Relation.ToA, compileCheck, hg, hp, hr, hh]

/-- C1: `author.Collection("book")` for the test's author (primary key 1) is
the unmaterialized `book` Relation scoped by `author_id = 1`; refining it
with `Where("year > ?", 1846)` and materializing against the test's four
book rows yields exactly the two books with years 1851 and 1847 — two
records, not the three the repository's test asserts. -/
theorem collection_where_year_gt_1846_returns_two_books :
    Collection authorModel author1Rec "book" = some author1BooksRel ∧
    (author1BooksRel.Where (.gtFrag "year" 1846)).ToA testDB =
      .ok [{ model := "book", attrs := mobyDickRow, persisted := true,
             outcome := .ok },
           { model := "book", attrs := omooRow, persisted := true,
             outcome := .ok }] ∧
    ((author1BooksRel.Where (.gtFrag "year" 1846)).ToA testDB).map
        List.length = .ok 2 :=
  ⟨rfl, rfl, rfl⟩

/-- C2: every chaining call is out-of-place: the result is a new Relation
holding the receiver's lists with exactly the one appended element (no other
field changes), and the rows a refined relation materializes are a pure
function of the base relation's rows, so refining never disturbs the base
and two independent refinements of the same base Relation never interfere. -/
theorem relation_chaining_is_pure (R : Relation) (c c2 : Cond)
    (g s j o : String) (db : DB) :
    R.Where c = { R with conds := R.conds ++ [c] } ∧
    R.Group g = { R with groups := R.groups ++ [g] } ∧
    R.Select s = { R with projection := R.projection ++ [s] } ∧
    R.Joins j = { R with joins := R.joins ++ [j] } ∧
    R.Order o = { R with order := R.order ++ [o] } ∧
    rowsOf (R.Where c) db = (rowsOf R db).filter (evalCond c) ∧
    rowsOf (R.Where c2) db = (rowsOf R db).filter (evalCond c2) :=
  ⟨rfl, rfl, rfl, rfl, rfl, rowsOf_Where R c db, rowsOf_Where R c2 db⟩

/-- C4: `R.Where(a).Where(b)` and `R.Where(b).Where(a)` apply both
predicates — the matching rows are the base rows passing the conjunction —
and materialize to identical result rows over any database. -/
theorem where_chaining_commutes (R : Relation) (a b : Cond) (db : DB) :
    rowsOf ((R.Where a).Where b) db
        = (rowsOf R db).filter (fun row => evalCond a row && evalCond b row) ∧
    ((R.Where a).Where b).ToA db = ((R.Where b).Where a).ToA db := by
  have expand : ∀ x y : Cond, rowsOf ((R.Where x).Where y) db
      = (rowsOf R db).filter (fun row => evalCond x row && evalCond y row) := by
    intro x y
    rw [rowsOf_Where, rowsOf_Where, List.filter_filter]
    exact List.filter_congr (fun row _ => Bool.and_comm _ _)
  refine ⟨expand a b, ToA_congr _ _ _ rfl rfl rfl ?_⟩
  rw [expand a b, expand b a]
  exact List.filter_congr (fun row _ => Bool.and_comm _ _)

theorem table_setTable (db : DB) (m : String) (rows : List Row) :
    DB.table (DB.setTable db m rows) m = rows := by
  induction db with
  | nil => simp [DB.setTable, DB.table]
  | cons p rest ih =>
    obtain ⟨n, t⟩ := p
    by_cases h : n = m
    · simp [DB.setTable, DB.table, h]
    · simpa [DB.setTable, DB.table, h] using ih

/-- C3: inserting a Record with values {name: "Moby Dick", year: 1851} into a
database holding no row with year 1851 and then materializing
`Model.All().Where("year", 1851)` returns exactly the inserted record, its
name and year matching the inserted values and the record persisted. -/
theorem insert_then_where_roundtrip (db : DB)
    (h : ∀ row ∈ DB.table db "novel", getAttr row "year" ≠ some (.int 1851)) :
    (novel.All.Where (.eq "year" (.int 1851))).ToA
        (Insert novel (novel.New mobyValues) db).2
      = .ok [(Insert novel (novel.New mobyValues) db).1] ∧
    getAttr (Insert novel (novel.New mobyValues) db).1.attrs "name"
      = some (.str "Moby Dick") ∧
    getAttr (Insert novel (novel.New mobyValues) db).1.attrs "year"
      = some (.int 1851) ∧
    (Insert novel (novel.New mobyValues) db).1.persisted = true := by
  have hrow : insertRow novel (novel.New mobyValues) db
      = ("id", .int ((DB.table db "novel").length + 1)) :: mobyValues := by
    simp [insertRow, ModelDef.New, novel, mobyValues, getAttr, List.find?]
  have hres : Insert novel (novel.New mobyValues) db
      = ({ model := "novel",
           attrs := ("id", .int ((DB.table db "novel").length + 1)) :: mobyValues,
           persisted := true, outcome := .ok },
         DB.setTable db "novel"
           (DB.table db "novel" ++
             [("id", .int ((DB.table db "novel").length + 1)) :: mobyValues])) := rfl
  rw [hres]
  refine ⟨?_, ?_, ?_, rfl⟩
  · have hcheck : compileCheck (novel.All.Where (.eq "year" (.int 1851)))
        = .ok () := rfl
    have hmodel : (novel.All.Where (.eq "year" (.int 1851))).model = "novel" := rfl
    simp only [Relation.ToA, hcheck]
    have hrows : rowsOf (novel.All.Where (.eq "year" (.int 1851)))
        (DB.setTable db "novel"
          (DB.table db "novel" ++
            [("id", .int ((DB.table db "novel").length + 1)) :: mobyValues]))
        = [("id", .int ((DB.table db "novel").length + 1)) :: mobyValues] := by
      rw [rowsOf, hmodel, table_setTable, List.filter_append]
      have hold : (DB.table db "novel").filter
          (matchRow (novel.All.Where (.eq "year" (.int 1851)))) = [] := by
        rw [List.filter_eq_nil_iff]
        intro row hrowmem
        have := h row hrowmem
        simp [matchRow, Relation.Where, ModelDef.All, novel, evalCond, this]
      rw [hold]
      simp [matchRow, Relation.Where, ModelDef.All, novel, evalCond, getAttr,
        mobyValues, List.find?]
    rw [hrows]
    simp [hydrate, project, Relation.Where, ModelDef.All, novel]
  · simp [getAttr, mobyValues, List.find?]
  · simp [getAttr, mobyValues, List.find?]

theorem insert_then_where_roundtrip_witness :
    (novel.All.Where (.eq "year" (.int 1851))).ToA
        (Insert novel (novel.New mobyValues) []).2
      = .ok [(Insert novel (novel.New mobyValues) []).1] ∧
    getAttr (Insert novel (novel.New mobyValues) []).1.attrs "year"
      = some (.int 1851) :=
  ⟨(insert_then_where_roundtrip []
      (by intro row hrow; simp [DB.table] at hrow)).1,
   (insert_then_where_roundtrip []
      (by intro row hrow; simp [DB.table] at hrow)).2.2.1⟩

/-- C5: the foreign-key attribute name of an association is derived as the
lower-cased singular name of the owning model followed by `_id` (the
declaring model for has-many, the target for belongs-to) and an explicit
override always wins; on the test's models: has-many author→book and the
explicit override on belongs-to book→author give `author_id`, belongs-to
book→publisher derives `publisher_id`. -/
theorem foreign_key_derivation (k : AssocKind) (owner target fk : String) :
    Association.foreignKey ⟨k, owner, target, some fk⟩ = fk ∧
    Association.foreignKey ⟨.hasMany, owner, target, none⟩
      = lowerName owner ++ "_id" ∧
    Association.foreignKey ⟨.belongsTo, owner, target, none⟩
      = lowerName target ++ "_id" ∧
    Association.foreignKey ⟨.hasMany, "author", "book", none⟩ = "author_id" ∧
    Association.foreignKey ⟨.belongsTo, "book", "publisher", none⟩
      = "publisher_id" ∧
    Association.foreignKey ⟨.belongsTo, "book", "author", some "author_id"⟩
      = "author_id" :=
  ⟨rfl, rfl, rfl, rfl, rfl, rfl⟩

/-- C6: a Relation grouping an attribute that is not among its projected
attributes compiles to a `CompilationError`, and materializing it returns
that error with a result independent of the database — no adapter access is
needed to report it. -/
theorem group_unselected_compilation_error (R : Relation) (g : String)
    (hg : g ∈ R.groups) (hp : R.projection.contains g = false) :
    ∃ a, compileCheck R = .error (.groupingUnselected a) ∧
      ∀ db1 db2 : DB, R.ToA db1 = .error (.groupingUnselected a) ∧
        R.ToA db1 = R.ToA db2 := by
  have hfind : (R.groups.find? (fun x => !(R.projection.contains x))).isSome := by
    rw [List.find?_isSome]
    exact ⟨g, hg, by rw [hp]; rfl⟩
  obtain ⟨a, ha⟩ := Option.isSome_iff_exists.mp hfind
  refine ⟨a, ?_, ?_⟩
  · rw [compileCheck, ha]
  · intro db1 db2
    constructor <;> simp only [Relation.ToA, compileCheck, ha]

theorem group_unselected_witness :
    ∃ a, compileCheck (bookModel.All.Group "year")
        = .error (.groupingUnselected a) ∧
      ∀ db1 db2 : DB,
        (bookModel.All.Group "year").ToA db1
            = .error (.groupingUnselected a) ∧
        (bookModel.All.Group "year").ToA db1
            = (bookModel.All.Group "year").ToA db2 :=
  group_unselected_compilation_error (bookModel.All.Group "year") "year"
    (by simp [ModelDef.All, Relation.Group, bookModel]) rfl

/-- C7: a failed outcome is never discarded and never thrown implicitly: a
failed Insert returns the Record (no hard stop) with the adapter's reason
inspectable in its outcome, the persisted flag and the database untouched;
`Expect(msg)` alone converts the failure into a hard stop whose message
carries both the caller's diagnostic and the underlying reason, and passes
an ok Record through unchanged. -/
theorem outcome_inspectable_and_expect (m : ModelDef) (r : Rec)
    (exec : Row → Except String Unit) (db : DB) (msg reason : String)
    (hexec : exec (insertRow m r db) = .error reason) :
    (InsertWith m r exec db).1.outcome = .failed reason ∧
    (InsertWith m r exec db).1.persisted = r.persisted ∧
    (InsertWith m r exec db).1.attrs = r.attrs ∧
    (InsertWith m r exec db).2 = db ∧
    Expect (InsertWith m r exec db).1 msg
      = .panicked (msg ++ ": " ++ reason) ∧
    (∀ (mdl : String) (ats : Row) (p : Bool),
      Expect ⟨mdl, ats, p, .ok⟩ msg = .ok ⟨mdl, ats, p, .ok⟩) ∧
    (∀ (mdl : String) (ats : Row) (p : Bool) (reason2 : String),
      Expect ⟨mdl, ats, p, .failed reason2⟩ msg
        = .panicked (msg ++ ": " ++ reason2)) := by
  refine ⟨?_, ?_, ?_, ?_, ?_, fun _ _ _ => rfl, fun _ _ _ _ => rfl⟩ <;>
    simp [InsertWith, hexec, Expect]

theorem outcome_inspectable_and_expect_witness :
    (InsertWith novel (novel.New mobyValues)
        (fun _ => .error "UNIQUE constraint failed") []).1.outcome
      = .failed "UNIQUE constraint failed" ∧
    Expect (InsertWith novel (novel.New mobyValues)
        (fun _ => .error "UNIQUE constraint failed") []).1
        "Expecting book inserted"
      = .panicked
          "Expecting book inserted: UNIQUE constraint failed" :=
  ⟨(outcome_inspectable_and_expect novel (novel.New mobyValues)
      (fun _ => .error "UNIQUE constraint failed") []
      "Expecting book inserted" "UNIQUE constraint failed" rfl).1,
   (outcome_inspectable_and_expect novel (novel.New mobyValues)
      (fun _ => .error "UNIQUE constraint failed") []
      "Expecting book inserted" "UNIQUE constraint failed" rfl).2.2.2.2.1⟩

end ActiveRecord

namespace Controller

/-- C8: evaluation of the code at the failing input: a GET whose URL lacks a
non-empty `query` parameter makes `parseURL` return a nil Request with an
error, and `ParseRequest` then reads `gr.Query` off the nil Request before
checking the parse error, so it panics with a nil-pointer dereference
instead of returning the error; a POST whose body parse yields a nil
Request panics the same way. -/
theorem parse_request_nil_deref_panics
    (parseVars : String → Except String (List (String × String)))
    (parseDoc : String → Except String Unit)
    (q : Values) (post : Except String GQLRequest) (e : String)
    (hq : Values.get q "query" = "") :
    parseURL parseVars q
      = .error "request is missing mandatory 'query' URL parameter" ∧
    ParseRequest parseVars parseDoc .get q post
      = .panicked
          "runtime error: invalid memory address or nil pointer dereference" ∧
    ParseRequest parseVars parseDoc .post q (.error e)
      = .panicked
          "runtime error: invalid memory address or nil pointer dereference" := by
  have hurl : parseURL parseVars q
      = .error "request is missing mandatory 'query' URL parameter" := by
    simp [parseURL, hq]
  refine ⟨hurl, ?_, rfl⟩
  simp [ParseRequest, hurl]

theorem parse_request_nil_deref_panics_witness :
    ParseRequest (fun _ => .ok []) (fun _ => .ok ()) .get []
        (.ok { query := "q", vars := none, operationName := "" })
      = .panicked
          "runtime error: invalid memory address or nil pointer dereference" :=
  (parse_request_nil_deref_panics (fun _ => .ok []) (fun _ => .ok ()) []
      (.ok { query := "q", vars := none, operationName := "" }) "bad body"
      rfl).2.1

/-- C9: evaluation of the code at the failing configuration: with a single
registered before-callback that writes a result ("unauthorized", as in the
callback documentation's authorization example), the response writer becomes
written, yet `callbackHandler.Serve` still invokes the wrapped GraphQL
handler — the written check only guards the next loop iteration, and there
is none — so the handler's write ("executed") replaces the callback's and
query execution is not overridden. -/
theorem before_callback_write_handler_still_runs :
    CallbackEntry.Serve authCallback ⟨none⟩ ⟨"mutation"⟩
      = ⟨some "unauthorized"⟩ ∧
    RW.IsWritten ⟨some "unauthorized"⟩ = true ∧
    callbackHandlerServe [authCallback] DefaultHandler [] ⟨none⟩ ⟨"mutation"⟩
      = ⟨some "executed"⟩ :=
  ⟨rfl, rfl, rfl⟩

end Controller

namespace Mapper

/-- C10: `Mapper.Match` consults only the last element of its variadic
constraints list (earlier elements never change the result); an empty list,
or a last element whose Request or Response field is nil, panics with
`ErrConstraintNotFound` carrying the missing constraint's name ("request" or
"response"), the operation and the path — the formatted message names all
three — and the matching is appended exactly when both constraints are
present. -/
theorem match_consults_last_constraint {Action : Type}
    (m : MapperState Action) (via path : String) (act : Action)
    (cs : List Constraints) (c : Constraints) :
    Match m via path act (cs ++ [c]) = Match m via path act [c] ∧
    Match m via path act []
      = .panicked { operation := via, name := path, constraint := "request" } ∧
    Match m via path act cs
      = (match (cs.getLastD ⟨none, none⟩).request,
               (cs.getLastD ⟨none, none⟩).response with
         | none, _ =>
           .panicked { operation := via, name := path, constraint := "request" }
         | some _, none =>
           .panicked { operation := via, name := path, constraint := "response" }
         | some _, some _ =>
           .ok ⟨m.matchings ++ [⟨via, path, act, cs.getLastD ⟨none, none⟩⟩]⟩) ∧
    ErrConstraintNotFound.errorString ⟨via, path, "request"⟩
      = "request constraint for " ++ via ++ " '" ++ path ++ "' not found" ∧
    ErrConstraintNotFound.errorString ⟨via, path, "response"⟩
      = "response constraint for " ++ via ++ " '" ++ path ++ "' not found" := by
  have hsel : ∀ l : List Constraints,
      (if l.length > 0 then l.getLastD ⟨none, none⟩ else ⟨none, none⟩)
        = l.getLastD ⟨none, none⟩ := by
    intro l
    cases l <;> simp
  refine ⟨?_, rfl, ?_, rfl, rfl⟩
  · simp only [Match, hsel, List.getLastD_concat]
    cases hc : [c].getLastD (⟨none, none⟩ : Constraints)
    simp at hc
    simp [hc]
  · simp only [Match, hsel]
    cases hreq : (cs.getLastD ⟨none, none⟩).request <;>
      cases hresp : (cs.getLastD ⟨none, none⟩).response <;>
        simp [hreq, hresp]

end Mapper
